import Mathlib

/-!
Shallow embedding of the `entity` package of pki-io/pki.io (src/entity/entity.go)
together with models of its collaborators (the `crypto` and `document` packages of
the same repository, which are not part of the sources under verification and are
therefore modelled from the specification).

Go strings are embedded as lists of natural numbers (their bytes); Go's
`(value, error)` returns become pairs with an `Option Err` component, and methods
that mutate their container argument are embedded in state-passing style,
returning the updated container.
-/

namespace Pki

/-- A Go string / byte slice, embedded as its list of bytes. -/
abbrev Str : Type := List Nat

/-- Error taxonomy of the entity operations.  Leaf constructors correspond to
the distinct `fmt.Errorf` failure messages of `entity.go` and of the modelled
collaborators; the unary constructors are the wrapping `fmt.Errorf("...: %s", err)`
sites. -/
inductive Err where
  | invalidKeyType
  | signingError
  | signedMismatch
  | invalidEncoding
  | authMismatch
  | notSigned
  | verificationError
  | authenticationVerificationError
  | notEncrypted
  | recipientNotFound
  | badKey
  | invalidRecipients
  | privateKeyMissing
  | decryptionError (inner : Err)
  | couldNotSign (inner : Err)
  | couldNotAuthenticate (inner : Err)
  | couldNotVerify (inner : Err)
  | couldNotDecrypt (inner : Err)
  | couldNotEncrypt (inner : Err)
  deriving DecidableEq, Repr

/-- Modelled from the spec: the encryption metadata owned by the envelope
collaborator — the per-recipient wrapped-key table (recipient id to the public
encryption key used) and the protected content. -/
structure EncData where
  keys : List (Str × Str)
  ct : Str
  deriving DecidableEq, Repr

/-- Modelled from the spec: the envelope (`document.Container`) fields the core
reads and writes — `sourceId`, `body`, `signatureMode`, `signature`,
`signatureInputs`, and the opaque encryption metadata. -/
structure Container where
  source : Str
  body : Str
  signatureMode : Str
  signature : Str
  signatureInputs : List (Str × Str)
  enc : Option EncData
  deriving DecidableEq, Repr

/-- Modelled from the spec: `document.NewContainer(nil)` with default (empty) fields. -/
def newContainer : Container :=
  { source := [], body := [], signatureMode := [], signature := [],
    signatureInputs := [], enc := none }

/-- The body of an entity document: identity metadata and the four PEM key
fields (empty when absent), as in `EntityData` of `entity.go`. -/
structure EntityData where
  id : Str
  name : Str
  keyType : Str
  publicSigningKey : Str
  privateSigningKey : Str
  publicEncryptionKey : Str
  privateEncryptionKey : Str
  deriving DecidableEq, Repr

/-- The byte string "rsa". -/
def ktRsa : Str := [114, 115, 97]
/-- The byte string "ec". -/
def ktEc : Str := [101, 99]

/-- Modelled from the spec: the `crypto.SignatureModeSha256Rsa` mode tag. -/
def modeRsa : Str := [82]
/-- Modelled from the spec: the `crypto.SignatureModeSha256Ecdsa` mode tag. -/
def modeEcdsa : Str := [69]
/-- Modelled from the spec: the `crypto.SignatureModeSha256Hmac` mode tag. -/
def modeHmac : Str := [72]

/-- The byte string "key-id", key of the key-id signature input. -/
def keyIdField : Str := [107, 101, 121, 45, 105, 100]
/-- The byte string "signature-salt", key of the salt signature input. -/
def saltField : Str := [115, 105, 103, 110, 97, 116, 117, 114, 101, 45, 115, 97, 108, 116]

/-- Association-list lookup, embedding read access to a Go `map[string]string`. -/
def alookup (m : List (Str × Str)) (k : Str) : Option Str :=
  match m with
  | [] => none
  | (a, b) :: rest => if a = k then some b else alookup rest k

/-- Read access with Go's zero-value semantics: a missing key yields the empty string. -/
def alookupD (m : List (Str × Str)) (k : Str) : Str :=
  (alookup m k).getD []

/-- Go `map[string]string` assignment: overwrite the binding if the key is
present, append it otherwise. -/
def minsert (m : List (Str × Str)) (k v : Str) : List (Str × Str) :=
  match m with
  | [] => [(k, v)]
  | (a, b) :: rest => if a = k then (k, v) :: rest else (a, b) :: minsert rest k v

/-- Value of a hexadecimal digit byte, accepting 0-9, a-f and A-F exactly as
Go's `encoding/hex` does. -/
def hexDigit (b : Nat) : Option Nat :=
  if 48 ≤ b ∧ b ≤ 57 then some (b - 48)
  else if 97 ≤ b ∧ b ≤ 102 then some (b - 87)
  else if 65 ≤ b ∧ b ≤ 70 then some (b - 55)
  else none

/-- Go's `hex.DecodeString`: pairs of hex digit bytes, failing on odd length or
a non-hex byte.  Case-insensitive, as in `encoding/hex`. -/
def hexDecode : Str → Option Str
  | [] => some []
  | [_] => none
  | a :: b :: rest =>
    match hexDigit a, hexDigit b, hexDecode rest with
    | some hi, some lo, some r => some ((hi * 16 + lo) :: r)
    | _, _, _ => none

/-- Modelled from the spec: the Base64 codec of the crypto collaborator,
modelled as an injective tagged-byte code — the encoder prefixes every byte
with a marker byte, and the decoder rejects any input not of that shape
(the model of "not valid base64"). -/
def base64Encode (s : Str) : Str :=
  s.flatMap (fun b => [65, b])

/-- Modelled from the spec: decoder of `base64Encode`; fails on malformed input. -/
def base64Decode : Str → Option Str
  | [] => some []
  | 65 :: b :: rest => (base64Decode rest).map (fun r => b :: r)
  | _ => none

/-- Modelled from the spec: `crypto.ExpandKey`, an HKDF-style key expansion —
the derived key is an injective function of the raw secret and the salt.  The
caller supplies the salt; `Authenticate` passes the fresh random salt as an
explicit argument of the embedding. -/
def expandKey (raw salt : Str) : Str :=
  2 :: raw.length :: (raw ++ salt)

/-- Modelled from the spec: an asymmetric private key, symbolically the seed
it was generated from.  PEM encoding is the identity of the model. -/
def privKey (s : Nat) : Str := [0, s]

/-- Modelled from the spec: the public half of the key pair of seed `s`. -/
def pubKey (s : Nat) : Str := [1, s]

/-- Whether a byte string is a well-formed private key of the model; Go's
`crypto.Sign` fails on key material that does not parse. -/
def isPrivKey : Str → Bool
  | [0, _] => true
  | _ => false

/-- Modelled from the spec: an RSA-SHA256 / ECDSA-SHA256 signature value over
a message, symbolically binding exactly the signed bytes and the private key. -/
def asymSig (msg priv : Str) : Str :=
  0 :: msg.length :: (msg ++ priv)

/-- Modelled from the spec: an HMAC-SHA256 code, symbolically binding exactly
the message and the derived key. -/
def hmacTag (msg key : Str) : Str :=
  1 :: msg.length :: (msg ++ key)

/-- Modelled from the spec: `crypto.Verify` — succeeds exactly when the
signature was produced over the same bytes with the private half of the given
public key. -/
def cryptoVerifyOk (msg sig pub : Str) : Bool :=
  match pub with
  | [1, n] => decide (sig = asymSig msg (privKey n))
  | _ => false

/-- Modelled from the spec: `crypto.HMACVerify`, a constant-time comparison of
the stored code with the recomputed one. -/
def hmacVerifyOk (msg key saved : Str) : Bool :=
  decide (saved = hmacTag msg key)

/-- Modelled from the spec: the canonical, deterministic envelope
serialization of the document collaborator.  Every field is length-prefixed,
so the serialization is injective — distinct containers serialize to distinct
byte strings. -/
def encStr (s : Str) : Str := s.length :: s

/-- Length-prefixed encoding of one signature-input pair. -/
def encPair (p : Str × Str) : Str := encStr p.1 ++ encStr p.2

/-- Count-prefixed encoding of the signature-input table. -/
def encPairs (l : List (Str × Str)) : Str := l.length :: l.flatMap encPair

/-- Tagged encoding of the optional encryption metadata. -/
def encEnc : Option EncData → Str
  | none => [0]
  | some ed => 1 :: (encPairs ed.keys ++ encStr ed.ct)

/-- Modelled from the spec: `container.Dump()`, the canonical serialization. -/
def Dump (c : Container) : Str :=
  encStr c.source ++ (encStr c.body ++ (encStr c.signatureMode ++
    (encStr c.signature ++ (encPairs c.signatureInputs ++ encEnc c.enc))))

/-- Modelled from the spec: `container.IsSigned()` — the signature field is non-empty. -/
def IsSigned (c : Container) : Bool :=
  decide (c.signature ≠ [])

/-- Modelled from the spec: `container.IsEncrypted()` — encryption metadata is present. -/
def IsEncrypted (c : Container) : Bool :=
  c.enc.isSome

/-- Modelled from the spec: `container.Encrypt(content, keys)` — the envelope
collaborator records the recipient-key table and the protected content. -/
def containerEncrypt (c : Container) (content : Str) (keys : List (Str × Str)) : Container :=
  { c with enc := some { keys := keys, ct := content } }

/-- Modelled from the spec: the public key corresponding to a private key of
the symbolic model (`none` when the argument is not well-formed private key
material, e.g. the empty string of a public view). -/
def pubOfPriv : Str → Option Str
  | [0, m] => some [1, m]
  | _ => none

/-- Modelled from the spec: `container.Decrypt(id, key)` — locate the wrapped
key addressed to `id` and unwrap it with the private key; fails when the id is
not a recipient or the key is not the counterpart of the recorded public key. -/
def containerDecrypt (ed : EncData) (id key : Str) : Except Err Str :=
  match alookup ed.keys id with
  | none => Except.error Err.recipientNotFound
  | some pub =>
    if pubOfPriv key = some pub then Except.ok ed.ct else Except.error Err.badKey

/-- The signature algorithm selected by the entity's key type, as in the
`switch` at the head of `Sign` (RSA to RSA-SHA256, EC to ECDSA-SHA256). -/
def modeOfKeyType (kt : Str) : Option Str :=
  if kt = ktRsa then some modeRsa
  else if kt = ktEc then some modeEcdsa
  else none

/-- Sets the four key fields of the entity from two generated key pairs, the
common tail of the RSA and EC branches of `GenerateKeys`. -/
def setKeys (e : EntityData) (s1 s2 : Nat) : EntityData :=
  { e with publicSigningKey := pubKey s1, privateSigningKey := privKey s1,
           publicEncryptionKey := pubKey s2, privateEncryptionKey := privKey s2 }

/-- `GenerateKeys`: dispatches on the key type, generating a signing pair and
an encryption pair (randomness embedded as the seeds `s1`, `s2`; the RSA
validation step of the source is modelled as succeeding); an unsupported key
type fails and leaves the entity unchanged. -/
def GenerateKeys (e : EntityData) (s1 s2 : Nat) : Option Err × EntityData :=
  if e.keyType = ktRsa then (none, setKeys e s1 s2)
  else if e.keyType = ktEc then (none, setKeys e s1 s2)
  else (some Err.invalidKeyType, e)

/-- `Sign`: select the mode from the key type; set `signatureMode` and clear
`signature`; serialize; sign the serialization with the private signing key;
check the signed bytes equal the serialization; store mode and signature. -/
def Sign (e : EntityData) (c : Container) : Option Err × Container :=
  match modeOfKeyType e.keyType with
  | none => (some Err.invalidKeyType, c)
  | some mode =>
    let c1 : Container := { c with signatureMode := mode, signature := [] }
    let json := Dump c1
    if isPrivKey e.privateSigningKey then
      if json = json then
        (none, { c1 with signatureMode := mode, signature := asymSig json e.privateSigningKey })
      else (some Err.signedMismatch, c1)
    else (some Err.signingError, c1)

/-- `Authenticate`: hex-decode the shared secret; expand it with a fresh salt
(the salt is an explicit argument of the embedding); set `signatureMode` to
HMAC, record the key id and the base64 salt in `signatureInputs`, clear
`signature`; serialize; store the HMAC over the serialization. -/
def Authenticate (_entity : EntityData) (c : Container) (id key salt : Str) :
    Option Err × Container :=
  match hexDecode key with
  | none => (some Err.invalidEncoding, c)
  | some rawKey =>
    let newKey := expandKey rawKey salt
    let c1 : Container :=
      { c with signatureMode := modeHmac,
               signatureInputs := [(keyIdField, id), (saltField, base64Encode salt)],
               signature := [] }
    let json := Dump c1
    if json = json then (none, { c1 with signature := hmacTag json newKey })
    else (some Err.authMismatch, c1)

/-- `VerifyAuthentication`: hex-decode the secret; base64-decode the recorded
salt — the source computes the decode error but discards it and continues (the
`fmt.Errorf` at line 329 is not returned), so the embedding continues with an
empty salt on decode failure; re-derive the key; save the signature aside and
clear it; recompute the HMAC over the serialization and compare. -/
def VerifyAuthentication (_entity : EntityData) (c : Container) (key : Str) :
    Option Err × Container :=
  match hexDecode key with
  | none => (some Err.invalidEncoding, c)
  | some rawKey =>
    let salt := (base64Decode (alookupD c.signatureInputs saltField)).getD []
    let newKey := expandKey rawKey salt
    let saved := c.signature
    let c1 : Container := { c with signature := [] }
    if hmacVerifyOk (Dump c1) newKey saved then (none, c1)
    else (some Err.authenticationVerificationError, c1)

/-- `Verify`: fail when the envelope is not signed; save the signature aside,
clear it, re-serialize, and check the saved signature against the entity's
public signing key. -/
def Verify (e : EntityData) (c : Container) : Option Err × Container :=
  if IsSigned c = false then (some Err.notSigned, c)
  else
    let saved := c.signature
    let c1 : Container := { c with signature := [] }
    if cryptoVerifyOk (Dump c1) saved e.publicSigningKey then (none, c1)
    else (some Err.verificationError, c1)

/-- `Decrypt`: fail when the envelope is not encrypted; otherwise hand the
entity's id and private encryption key to the envelope collaborator, wrapping
any failure; returns the Go pair (plaintext, error) with empty plaintext on
failure. -/
def Decrypt (e : EntityData) (c : Container) : Str × Option Err :=
  match c.enc with
  | none => ([], some Err.notEncrypted)
  | some ed =>
    match containerDecrypt ed e.id e.privateEncryptionKey with
    | Except.error er => ([], some (Err.decryptionError er))
    | Except.ok pt => (pt, none)

/-- `Public`: dump the entity, reload it (the document round-trip of the
excluded load/dump utility is modelled as the identity), and erase the two
private key fields. -/
def Public (e : EntityData) : EntityData :=
  { e with privateSigningKey := [], privateEncryptionKey := [] }

/-- `SignString`: build a fresh container with the entity's id as source and
the content as body, then sign it. -/
def SignString (e : EntityData) (content : Str) : Option Container × Option Err :=
  let c : Container := { newContainer with source := e.id, body := content }
  match Sign e c with
  | (some er, _) => (none, some (Err.couldNotSign er))
  | (none, c1) => (some c1, none)

/-- `AuthenticateString`: build a fresh container, then authenticate it. -/
def AuthenticateString (e : EntityData) (content id key salt : Str) :
    Option Container × Option Err :=
  let c : Container := { newContainer with source := e.id, body := content }
  match Authenticate e c id key salt with
  | (some er, _) => (none, some (Err.couldNotAuthenticate er))
  | (none, c1) => (some c1, none)

/-- The dynamic type of the `entities interface{}` argument of `Encrypt`:
absent (`nil`), a slice of entities, or a value of any other type. -/
inductive Recipients where
  | absent
  | list (es : List EntityData)
  | other
  deriving Repr

/-- The recipient-key map built by the entity-slice branch of `Encrypt`. -/
def buildKeys (es : List EntityData) : List (Str × Str) :=
  es.foldl (fun m x => minsert m x.id x.publicEncryptionKey) []

/-- `Encrypt`: build the recipient-key map (own key when the argument is
absent, each entity's id and public encryption key for a slice, failing with
invalid-recipients for any other dynamic type); build a fresh container, set
its source to the entity's id and hand content and keys to the envelope
collaborator. -/
def Encrypt (e : EntityData) (content : Str) (r : Recipients) :
    Option Container × Option Err :=
  match r with
  | Recipients.list es =>
    let keys := buildKeys es
    let c : Container := { newContainer with source := e.id }
    (some (containerEncrypt c content keys), none)
  | Recipients.absent =>
    let keys := [(e.id, e.publicEncryptionKey)]
    let c : Container := { newContainer with source := e.id }
    (some (containerEncrypt c content keys), none)
  | Recipients.other => (none, some Err.invalidRecipients)

/-- `EncryptThenSignString`: encrypt, then sign the resulting container. -/
def EncryptThenSignString (e : EntityData) (content : Str) (r : Recipients) :
    Option Container × Option Err :=
  match Encrypt e content r with
  | (none, some er) => (none, some (Err.couldNotEncrypt er))
  | (some c, _) =>
    match Sign e c with
    | (some er, _) => (none, some (Err.couldNotSign er))
    | (none, c1) => (some c1, none)
  | (none, none) => (none, none)

/-- `EncryptThenAuthenticateString`: encrypt, then authenticate. -/
def EncryptThenAuthenticateString (e : EntityData) (content : Str) (r : Recipients)
    (id key salt : Str) : Option Container × Option Err :=
  match Encrypt e content r with
  | (none, some er) => (none, some (Err.couldNotEncrypt er))
  | (some c, _) =>
    match Authenticate e c id key salt with
    | (some er, _) => (none, some (Err.couldNotAuthenticate er))
    | (none, c1) => (some c1, none)
  | (none, none) => (none, none)

/-- The primitive steps a composite protocol can invoke, recorded as a call
trace by the embedding of the two verify-then-decrypt composites. -/
inductive OpStep where
  | verify
  | verifyAuth
  | decrypt
  deriving DecidableEq, Repr

/-- `VerifyThenDecrypt`: verify, failing fast without attempting decryption;
on success decrypt.  Returns the Go pair (plaintext, error), the container
state (mutated by the verification step), and the trace of primitive calls. -/
def VerifyThenDecrypt (e : EntityData) (c : Container) :
    (Str × Option Err) × Container × List OpStep :=
  match Verify e c with
  | (some er, c1) => (([], some (Err.couldNotVerify er)), c1, [OpStep.verify])
  | (none, c1) =>
    match Decrypt e c1 with
    | (_, some er) => (([], some (Err.couldNotDecrypt er)), c1, [OpStep.verify, OpStep.decrypt])
    | (pt, none) => ((pt, none), c1, [OpStep.verify, OpStep.decrypt])

/-- `VerifyAuthenticationThenDecrypt`: verify the authentication code, failing
fast without attempting decryption; on success decrypt. -/
def VerifyAuthenticationThenDecrypt (e : EntityData) (c : Container) (key : Str) :
    (Str × Option Err) × Container × List OpStep :=
  match VerifyAuthentication e c key with
  | (some er, c1) => (([], some (Err.couldNotVerify er)), c1, [OpStep.verifyAuth])
  | (none, c1) =>
    match Decrypt e c1 with
    | (_, some er) => (([], some (Err.couldNotDecrypt er)), c1, [OpStep.verifyAuth, OpStep.decrypt])
    | (pt, none) => ((pt, none), c1, [OpStep.verifyAuth, OpStep.decrypt])

/-- Flip bit `k` of byte `i` of a byte string. -/
def flipBit (s : Str) (i k : Nat) : Str :=
  s.set i ((s.getD i 0) ^^^ (2 ^ k))

/-- The envelope state over which `Sign` computes its signature: mode set,
signature cleared. -/
def signedCleared (c : Container) (mode : Str) : Container :=
  { c with signatureMode := mode, signature := [] }

/-- The envelope produced by a successful `Sign` run: mode set and the
signature over the serialization of the cleared envelope. -/
def signedContainer (c : Container) (mode priv : Str) : Container :=
  { signedCleared c mode with
    signature := asymSig (Dump (signedCleared c mode)) priv }

/-- The signature-inputs table recorded by `Authenticate`. -/
def authInputs (id salt : Str) : List (Str × Str) :=
  [(keyIdField, id), (saltField, base64Encode salt)]

/-- The envelope state over which `Authenticate` computes its code: mode and
inputs set, signature cleared. -/
def authedCleared (c : Container) (id salt : Str) : Container :=
  { c with signatureMode := modeHmac,
           signatureInputs := authInputs id salt,
           signature := [] }

/-- The envelope produced by a successful `Authenticate` run: mode, inputs and
the authentication code over the serialization of the cleared envelope. -/
def authedContainer (c : Container) (id salt raw : Str) : Container :=
  { authedCleared c id salt with
    signature := hmacTag (Dump (authedCleared c id salt)) (expandKey raw salt) }

/-- A sample entity without key material, used to instantiate witnesses. -/
def sampleEntity : EntityData := ⟨[9], [], ktEc, [], [], [], []⟩

/-- A sample entity holding the symbolic key pairs of seeds 1 and 2. -/
def sampleKeyedEntity : EntityData := ⟨[9], [], ktEc, [1, 1], [0, 1], [1, 2], [0, 2]⟩

/-- A second sample entity with distinct id, for multi-recipient witnesses. -/
def sampleEntityB : EntityData := ⟨[10], [], ktEc, [1, 3], [0, 3], [1, 4], [0, 4]⟩

/-- An encrypted sample envelope addressed to `sampleKeyedEntity`. -/
def sampleEncrypted : Container :=
  { newContainer with enc := some ⟨[([9], [1, 2])], [7, 8]⟩ }

/-- An envelope whose recorded signature salt is not valid base64. -/
def invalidSaltContainer : Container :=
  { newContainer with signatureInputs := [(saltField, [33])] }

/-- The invalid-salt envelope carrying an authentication code forged over the
empty salt the buggy decode path falls back to. -/
def forgedContainer : Container :=
  { invalidSaltContainer with
    signature := hmacTag (Dump invalidSaltContainer) (expandKey [170] []) }

/-- The statement of claim C1 for an entity, the two key seeds and a content
string: key generation succeeds, signing the content yields an envelope that
verifies, and flipping any bit of any byte of the envelope body makes
verification fail with the verification error. -/
def C1Statement (e : EntityData) (s1 s2 : Nat) (content : Str) : Prop :=
  (GenerateKeys e s1 s2).1 = none ∧
  ∃ c, SignString (GenerateKeys e s1 s2).2 content = (some c, none) ∧
    c.body = content ∧
    (Verify (GenerateKeys e s1 s2).2 c).1 = none ∧
    ∀ i k, i < c.body.length →
      (Verify (GenerateKeys e s1 s2).2 { c with body := flipBit c.body i k }).1
        = some Err.verificationError

/-- The statement of the amended claim C2, quantified over the entity, the
starting envelope, the key id, the hex secret and the salt of the
authentication call. -/
def C2Statement (e e2 : EntityData) (c : Container) (id key salt raw : Str) : Prop :=
  (Authenticate e c id key salt).1 = none ∧
  ∀ cA, Authenticate e c id key salt = (none, cA) →
    (VerifyAuthentication e2 cA key).1 = none ∧
    (∀ key2 raw2, hexDecode key2 = some raw2 → raw2 ≠ raw →
      (VerifyAuthentication e2 cA key2).1 = some Err.authenticationVerificationError) ∧
    (∀ id2 salt2, salt2 ≠ salt →
      (VerifyAuthentication e2
          { cA with signatureInputs := [(keyIdField, id2), (saltField, base64Encode salt2)] }
          key).1 = some Err.authenticationVerificationError)

/-! Injectivity of the length-prefixed serialization and of the symbolic
cryptographic values. -/

theorem encStr_append_inj {a b x y : Str} (h : encStr a ++ x = encStr b ++ y) :
    a = b ∧ x = y := by
  simp only [encStr, List.cons_append, List.cons.injEq] at h
  exact List.append_inj h.2 h.1

theorem encStr_inj {a b : Str} (h : encStr a = encStr b) : a = b := by
  simp only [encStr, List.cons.injEq] at h
  exact h.2

theorem encPair_append_inj {p q : Str × Str} {x y : Str}
    (h : encPair p ++ x = encPair q ++ y) : p = q ∧ x = y := by
  obtain ⟨p1, p2⟩ := p
  obtain ⟨q1, q2⟩ := q
  simp only [encPair, List.append_assoc] at h
  obtain ⟨h1, h2⟩ := encStr_append_inj h
  obtain ⟨h3, h4⟩ := encStr_append_inj h2
  subst h1; subst h3
  exact ⟨rfl, h4⟩

theorem flatPairs_append_inj : ∀ {l l' : List (Str × Str)} {x y : Str},
    l.length = l'.length → l.flatMap encPair ++ x = l'.flatMap encPair ++ y →
    l = l' ∧ x = y := by
  intro l
  induction l with
  | nil =>
    intro l' x y hl h
    cases l' with
    | nil => simpa using h
    | cons b t' => simp at hl
  | cons a t ih =>
    intro l' x y hl h
    cases l' with
    | nil => simp at hl
    | cons b t' =>
      simp only [List.flatMap_cons, List.append_assoc] at h
      obtain ⟨hab, hrest⟩ := encPair_append_inj h
      simp only [List.length_cons, Nat.succ.injEq] at hl
      obtain ⟨ht, hxy⟩ := ih hl hrest
      subst hab; subst ht
      exact ⟨rfl, hxy⟩

theorem encPairs_append_inj {l l' : List (Str × Str)} {x y : Str}
    (h : encPairs l ++ x = encPairs l' ++ y) : l = l' ∧ x = y := by
  simp only [encPairs, List.cons_append, List.cons.injEq] at h
  exact flatPairs_append_inj h.1 h.2

theorem encEnc_inj {e e' : Option EncData} (h : encEnc e = encEnc e') : e = e' := by
  match e, e' with
  | none, none => rfl
  | none, some ed => simp [encEnc] at h
  | some ed, none => simp [encEnc] at h
  | some ed, some ed' =>
    obtain ⟨ks, ct⟩ := ed
    obtain ⟨ks', ct'⟩ := ed'
    simp only [encEnc, List.cons.injEq, true_and] at h
    obtain ⟨hk, hc⟩ := encPairs_append_inj h
    have hct := encStr_inj hc
    subst hk; subst hct
    rfl

theorem dump_inj {c c' : Container} (h : Dump c = Dump c') : c = c' := by
  obtain ⟨s, b, m, g, i, en⟩ := c
  obtain ⟨s', b', m', g', i', en'⟩ := c'
  unfold Dump at h
  obtain ⟨h1, h⟩ := encStr_append_inj h
  obtain ⟨h2, h⟩ := encStr_append_inj h
  obtain ⟨h3, h⟩ := encStr_append_inj h
  obtain ⟨h4, h⟩ := encStr_append_inj h
  obtain ⟨h5, h⟩ := encPairs_append_inj h
  have h6 := encEnc_inj h
  subst h1; subst h2; subst h3; subst h4; subst h5; subst h6
  rfl

theorem asymSig_inj {m m' k k' : Str} (h : asymSig m k = asymSig m' k') :
    m = m' ∧ k = k' := by
  simp only [asymSig, List.cons.injEq, true_and] at h
  exact List.append_inj h.2 h.1

theorem hmacTag_inj {m m' k k' : Str} (h : hmacTag m k = hmacTag m' k') :
    m = m' ∧ k = k' := by
  simp only [hmacTag, List.cons.injEq, true_and] at h
  exact List.append_inj h.2 h.1

theorem expandKey_inj {r r' s s' : Str} (h : expandKey r s = expandKey r' s') :
    r = r' ∧ s = s' := by
  simp only [expandKey, List.cons.injEq, true_and] at h
  exact List.append_inj h.2 h.1

theorem asymSig_ne_nil {m k : Str} : asymSig m k ≠ [] := by
  simp [asymSig]

theorem hmacTag_ne_nil {m k : Str} : hmacTag m k ≠ [] := by
  simp [hmacTag]

theorem base64_roundtrip (s : Str) : base64Decode (base64Encode s) = some s := by
  induction s with
  | nil => rfl
  | cons b t ih =>
    have he : base64Encode (b :: t) = 65 :: b :: base64Encode t := by
      simp [base64Encode]
    rw [he, base64Decode, ih]
    rfl

theorem flipBit_ne {s : Str} {i k : Nat} (hi : i < s.length) : flipBit s i k ≠ s := by
  intro h
  have hv : (flipBit s i k).getD i 0 = s.getD i 0 := by rw [h]
  have hset : (flipBit s i k).getD i 0 = (s.getD i 0) ^^^ (2 ^ k) := by
    unfold flipBit
    rw [List.getD_eq_getElem _ _ (by simpa using hi)]
    exact List.getElem_set_self _
  rw [hset] at hv
  have h2 : 2 ^ k = 0 := by
    have h3 := congrArg (fun z => (s.getD i 0) ^^^ z) hv
    simp only [← Nat.xor_assoc, Nat.xor_self, Nat.zero_xor] at h3
    exact h3
  exact absurd h2 (Nat.pos_iff_ne_zero.mp (Nat.two_pow_pos k))

/-! Lookup lemmas for the recipient-key map. -/

theorem alookup_minsert_self (m : List (Str × Str)) (k v : Str) :
    alookup (minsert m k v) k = some v := by
  induction m with
  | nil => simp [minsert, alookup]
  | cons p rest ih =>
    obtain ⟨a, b⟩ := p
    by_cases hak : a = k
    · simp [minsert, hak, alookup]
    · simp [minsert, hak, alookup, ih]

theorem alookup_minsert_of_ne {m : List (Str × Str)} {k v k2 : Str} (h : k ≠ k2) :
    alookup (minsert m k v) k2 = alookup m k2 := by
  induction m with
  | nil => simp [minsert, alookup, h]
  | cons p rest ih =>
    obtain ⟨a, b⟩ := p
    by_cases hak : a = k
    · subst hak
      simp [minsert, alookup, h]
    · by_cases hak2 : a = k2
      · subst hak2
        simp [minsert, hak, alookup]
      · simp [minsert, hak, alookup, hak2, ih]

theorem alookup_foldl_of_not_mem :
    ∀ (xs : List EntityData) (acc : List (Str × Str)) (k : Str),
    k ∉ xs.map EntityData.id →
    alookup (xs.foldl (fun m x => minsert m x.id x.publicEncryptionKey) acc) k
      = alookup acc k := by
  intro xs
  induction xs with
  | nil => intro acc k _; rfl
  | cons x t ih =>
    intro acc k h
    simp only [List.map_cons, List.mem_cons] at h
    push_neg at h
    obtain ⟨h1, h2⟩ := h
    simp only [List.foldl_cons]
    rw [ih _ _ h2, alookup_minsert_of_ne (fun he => h1 he.symm)]

theorem alookup_buildKeys_aux :
    ∀ (es : List EntityData) (acc : List (Str × Str)) (r : EntityData),
    (es.map EntityData.id).Nodup → r ∈ es →
    alookup (es.foldl (fun m x => minsert m x.id x.publicEncryptionKey) acc) r.id
      = some r.publicEncryptionKey := by
  intro es
  induction es with
  | nil => intro acc r _ hr; simp at hr
  | cons x t ih =>
    intro acc r hnd hr
    simp only [List.map_cons, List.nodup_cons] at hnd
    obtain ⟨hx, hnd'⟩ := hnd
    simp only [List.foldl_cons]
    rcases List.mem_cons.mp hr with h | h
    · subst h
      rw [alookup_foldl_of_not_mem t _ _ hx, alookup_minsert_self]
    · exact ih _ r hnd' h

theorem alookup_buildKeys {es : List EntityData} (hnd : (es.map EntityData.id).Nodup)
    {r : EntityData} (hr : r ∈ es) :
    alookup (buildKeys es) r.id = some r.publicEncryptionKey :=
  alookup_buildKeys_aux es [] r hnd hr

/-! Shape lemmas: the value of each entity operation on each of its paths. -/

theorem GenerateKeys_shape {e : EntityData} {s1 s2 : Nat}
    (hkt : e.keyType = ktRsa ∨ e.keyType = ktEc) :
    GenerateKeys e s1 s2 = (none, setKeys e s1 s2) := by
  rcases hkt with h | h <;> simp [GenerateKeys, h, ktRsa, ktEc]

theorem Sign_shape_ok {e : EntityData} {c : Container} {mode : Str}
    (hm : modeOfKeyType e.keyType = some mode)
    (hp : isPrivKey e.privateSigningKey = true) :
    Sign e c = (none, signedContainer c mode e.privateSigningKey) := by
  unfold Sign signedContainer signedCleared
  rw [hm]
  simp [hp]

theorem Sign_shape_badKeyType {e : EntityData} {c : Container}
    (hm : modeOfKeyType e.keyType = none) :
    Sign e c = (some Err.invalidKeyType, c) := by
  unfold Sign
  rw [hm]

theorem Sign_shape_badPriv {e : EntityData} {c : Container} {mode : Str}
    (hm : modeOfKeyType e.keyType = some mode)
    (hp : isPrivKey e.privateSigningKey = false) :
    Sign e c = (some Err.signingError,
      { c with signatureMode := mode, signature := [] }) := by
  unfold Sign
  rw [hm]
  simp [hp]

theorem Authenticate_shape_ok {e : EntityData} {c : Container} {id key salt raw : Str}
    (hk : hexDecode key = some raw) :
    Authenticate e c id key salt = (none, authedContainer c id salt raw) := by
  unfold Authenticate authedContainer authedCleared authInputs
  rw [hk]
  simp

theorem Authenticate_shape_badHex {e : EntityData} {c : Container} {id key salt : Str}
    (hk : hexDecode key = none) :
    Authenticate e c id key salt = (some Err.invalidEncoding, c) := by
  unfold Authenticate
  rw [hk]

theorem Verify_shape_notSigned {e : EntityData} {c : Container}
    (hs : c.signature = []) :
    Verify e c = (some Err.notSigned, c) := by
  unfold Verify
  simp [IsSigned, hs]

theorem Verify_shape_ok {e : EntityData} {c : Container}
    (hs : c.signature ≠ [])
    (hv : cryptoVerifyOk (Dump { c with signature := [] }) c.signature e.publicSigningKey
            = true) :
    Verify e c = (none, { c with signature := [] }) := by
  unfold Verify
  simp [IsSigned, hs, hv]

theorem Verify_shape_fail {e : EntityData} {c : Container}
    (hs : c.signature ≠ [])
    (hv : cryptoVerifyOk (Dump { c with signature := [] }) c.signature e.publicSigningKey
            = false) :
    Verify e c = (some Err.verificationError, { c with signature := [] }) := by
  unfold Verify
  simp [IsSigned, hs, hv]

theorem VerifyAuthentication_shape {e : EntityData} {c : Container} {key raw : Str}
    (hk : hexDecode key = some raw) :
    VerifyAuthentication e c key =
      (if hmacVerifyOk (Dump { c with signature := [] })
            (expandKey raw ((base64Decode (alookupD c.signatureInputs saltField)).getD []))
            c.signature
       then (none, { c with signature := [] })
       else (some Err.authenticationVerificationError, { c with signature := [] })) := by
  unfold VerifyAuthentication
  rw [hk]

theorem VerifyAuthentication_shape_badHex {e : EntityData} {c : Container} {key : Str}
    (hk : hexDecode key = none) :
    VerifyAuthentication e c key = (some Err.invalidEncoding, c) := by
  unfold VerifyAuthentication
  rw [hk]

theorem alookupD_sig_inputs (a x : Str) :
    alookupD [(keyIdField, a), (saltField, x)] saltField = x := rfl

theorem VerifyAuthentication_ok {e : EntityData} {c : Container} {key raw : Str}
    (hk : hexDecode key = some raw)
    (heq : c.signature = hmacTag (Dump { c with signature := [] })
      (expandKey raw ((base64Decode (alookupD c.signatureInputs saltField)).getD []))) :
    VerifyAuthentication e c key = (none, { c with signature := [] }) := by
  rw [VerifyAuthentication_shape hk]
  have hb : hmacVerifyOk (Dump { c with signature := [] })
      (expandKey raw ((base64Decode (alookupD c.signatureInputs saltField)).getD []))
      c.signature = true := by
    unfold hmacVerifyOk
    rw [decide_eq_true_eq]
    exact heq
  simp [hb]

theorem VerifyAuthentication_fail {e : EntityData} {c : Container} {key raw : Str}
    (hk : hexDecode key = some raw)
    (hne : c.signature ≠ hmacTag (Dump { c with signature := [] })
      (expandKey raw ((base64Decode (alookupD c.signatureInputs saltField)).getD []))) :
    VerifyAuthentication e c key
      = (some Err.authenticationVerificationError, { c with signature := [] }) := by
  rw [VerifyAuthentication_shape hk]
  have hb : hmacVerifyOk (Dump { c with signature := [] })
      (expandKey raw ((base64Decode (alookupD c.signatureInputs saltField)).getD []))
      c.signature = false := by
    unfold hmacVerifyOk
    rw [decide_eq_false_iff_not]
    exact hne
  simp [hb]

/-! The claims. -/

/-- C7: `Public` returns an entity with identical id, name, key type and
public keys and with both private-key fields empty.  The embedding is pure
state-passing, so the argument entity is a value the call cannot mutate. -/
theorem claim_C7 (e : EntityData) :
    (Public e).id = e.id ∧ (Public e).name = e.name ∧
    (Public e).keyType = e.keyType ∧
    (Public e).publicSigningKey = e.publicSigningKey ∧
    (Public e).publicEncryptionKey = e.publicEncryptionKey ∧
    (Public e).privateSigningKey = [] ∧
    (Public e).privateEncryptionKey = [] := by
  simp [Public]

/-- C4: the two verify-then-decrypt composites fail fast — when the
verification step fails, the composite returns the empty plaintext and an
error wrapping the verification failure, and its call trace contains only the
verification step, no decrypt. -/
theorem claim_C4 (e : EntityData) (c : Container) (key : Str) (er1 er2 : Err) :
    ((Verify e c).1 = some er1 →
      VerifyThenDecrypt e c
        = (([], some (Err.couldNotVerify er1)), (Verify e c).2, [OpStep.verify])) ∧
    ((VerifyAuthentication e c key).1 = some er2 →
      VerifyAuthenticationThenDecrypt e c key
        = (([], some (Err.couldNotVerify er2)), (VerifyAuthentication e c key).2,
            [OpStep.verifyAuth])) := by
  constructor
  · intro h
    rcases hV : Verify e c with ⟨o, c1⟩
    rw [hV] at h
    simp only at h
    subst h
    simp [VerifyThenDecrypt, hV]
  · intro h
    rcases hV : VerifyAuthentication e c key with ⟨o, c1⟩
    rw [hV] at h
    simp only at h
    subst h
    simp [VerifyAuthenticationThenDecrypt, hV]

theorem claim_C4_witness :
    (Verify sampleEntity newContainer).1 = some Err.notSigned ∧
    (VerifyAuthentication sampleEntity newContainer [97, 97]).1
      = some Err.authenticationVerificationError ∧
    VerifyThenDecrypt sampleEntity newContainer
      = (([], some (Err.couldNotVerify Err.notSigned)),
          (Verify sampleEntity newContainer).2, [OpStep.verify]) ∧
    VerifyAuthenticationThenDecrypt sampleEntity newContainer [97, 97]
      = (([], some (Err.couldNotVerify Err.authenticationVerificationError)),
          (VerifyAuthentication sampleEntity newContainer [97, 97]).2,
          [OpStep.verifyAuth]) :=
  ⟨by decide, by decide,
    (claim_C4 sampleEntity newContainer [97, 97] Err.notSigned
      Err.authenticationVerificationError).1 (by decide),
    (claim_C4 sampleEntity newContainer [97, 97] Err.notSigned
      Err.authenticationVerificationError).2 (by decide)⟩

/-- C3: the signature stored by `Sign` and the authentication code stored by
`Authenticate` are computed over the serialization of the container whose
signature field is empty — the serialized bytes that are signed never contain
a stale signature value. -/
theorem claim_C3 (e : EntityData) (c : Container) (id key salt raw : Str) :
    ((Sign e c).1 = none →
      (Sign e c).2.signature
        = asymSig (Dump { (Sign e c).2 with signature := [] }) e.privateSigningKey) ∧
    (hexDecode key = some raw →
      (Authenticate e c id key salt).2.signature
        = hmacTag (Dump { (Authenticate e c id key salt).2 with signature := [] })
            (expandKey raw salt)) := by
  constructor
  · intro h
    rcases hm : modeOfKeyType e.keyType with _ | mode
    · rw [Sign_shape_badKeyType hm] at h
      simp at h
    · cases hp : isPrivKey e.privateSigningKey
      · rw [Sign_shape_badPriv hm hp] at h
        simp at h
      · rw [Sign_shape_ok hm hp]
        rfl
  · intro hk
    rw [Authenticate_shape_ok hk]
    rfl

theorem claim_C3_witness :
    (Sign sampleKeyedEntity newContainer).1 = none ∧
    hexDecode [97, 97] = some [170] ∧
    (Sign sampleKeyedEntity newContainer).2.signature
      = asymSig (Dump { (Sign sampleKeyedEntity newContainer).2 with signature := [] })
          sampleKeyedEntity.privateSigningKey ∧
    (Authenticate sampleKeyedEntity newContainer [3] [97, 97] [5]).2.signature
      = hmacTag
          (Dump { (Authenticate sampleKeyedEntity newContainer [3] [97, 97] [5]).2 with
                  signature := [] })
          (expandKey [170] [5]) :=
  ⟨by decide, by decide,
    (claim_C3 sampleKeyedEntity newContainer [3] [97, 97] [5] [170]).1 (by decide),
    (claim_C3 sampleKeyedEntity newContainer [3] [97, 97] [5] [170]).2 (by decide)⟩

/-- C9, counterexample: an `Authenticate` invocation whose shared secret is
not valid hex returns an error without setting the envelope's signature mode —
the mode of the attempted code (HMAC-SHA256) is not recorded, contradicting
the claim that the mode is set even on invocations that return an error. -/
theorem claim_C9_counterexample :
    (Authenticate sampleEntity newContainer [] [122] []).1 = some Err.invalidEncoding ∧
    (Authenticate sampleEntity newContainer [] [122] []).2.signatureMode ≠ modeHmac := by
  constructor
  · decide
  · decide

/-- C9, amended: once the early argument validation has passed — a supported
key type for `Sign`, a hex-decodable secret for `Authenticate` — the
envelope's signature mode is set to the mode of the attempted code on every
path, including the failure paths; on the early validation failures the
envelope is left unchanged. -/
theorem claim_C9_amended (e : EntityData) (c : Container) (id key salt : Str) :
    (∀ mode, modeOfKeyType e.keyType = some mode → (Sign e c).2.signatureMode = mode) ∧
    (modeOfKeyType e.keyType = none → (Sign e c).2 = c) ∧
    (∀ raw, hexDecode key = some raw →
      (Authenticate e c id key salt).2.signatureMode = modeHmac) ∧
    (hexDecode key = none → (Authenticate e c id key salt).2 = c) := by
  refine ⟨?_, ?_, ?_, ?_⟩
  · intro mode hm
    cases hp : isPrivKey e.privateSigningKey
    · rw [Sign_shape_badPriv hm hp]
    · rw [Sign_shape_ok hm hp]
      rfl
  · intro hm
    rw [Sign_shape_badKeyType hm]
  · intro raw hk
    rw [Authenticate_shape_ok hk]
    rfl
  · intro hk
    rw [Authenticate_shape_badHex hk]

theorem claim_C9_amended_witness :
    modeOfKeyType sampleKeyedEntity.keyType = some modeEcdsa ∧
    hexDecode [97, 97] = some [170] ∧
    (Sign sampleKeyedEntity newContainer).2.signatureMode = modeEcdsa ∧
    (Authenticate sampleKeyedEntity newContainer [3] [97, 97] [5]).2.signatureMode
      = modeHmac :=
  ⟨by decide, by decide,
    (claim_C9_amended sampleKeyedEntity newContainer [3] [97, 97] [5]).1 modeEcdsa (by decide),
    (claim_C9_amended sampleKeyedEntity newContainer [3] [97, 97] [5]).2.2.1 [170] (by decide)⟩

/-- C10: every `Verify` call, and every `VerifyAuthentication` call that gets
past the hex decode of the secret (the calls that succeed or fail the
comparison), leaves the envelope's signature field empty — the signature saved
aside for the comparison is never written back — so a subsequent `Verify` of
the same envelope fails with the not-signed error. -/
theorem claim_C10 (e e2 : EntityData) (c : Container) (key : Str)
    (hk : hexDecode key ≠ none) :
    ((Verify e c).2.signature = [] ∧
      (Verify e2 (Verify e c).2).1 = some Err.notSigned) ∧
    ((VerifyAuthentication e c key).2.signature = [] ∧
      (Verify e2 (VerifyAuthentication e c key).2).1 = some Err.notSigned) := by
  have hempty : ∀ c3 : Container, c3.signature = [] →
      (Verify e2 c3).1 = some Err.notSigned := by
    intro c3 h3
    rw [Verify_shape_notSigned h3]
  constructor
  · have h2 : (Verify e c).2.signature = [] := by
      by_cases hs : c.signature = []
      · rw [Verify_shape_notSigned hs]
        exact hs
      · cases hv : cryptoVerifyOk (Dump { c with signature := [] }) c.signature
            e.publicSigningKey
        · rw [Verify_shape_fail hs hv]
        · rw [Verify_shape_ok hs hv]
    exact ⟨h2, hempty _ h2⟩
  · rcases ho : hexDecode key with _ | raw
    · exact absurd ho hk
    · have h2 : (VerifyAuthentication e c key).2.signature = [] := by
        rw [VerifyAuthentication_shape ho]
        split
        · rfl
        · rfl
      exact ⟨h2, hempty _ h2⟩

/-- C5, counterexample: decrypting an encrypted envelope with a public view —
an entity whose private encryption key is absent — fails with the
decryption-error wrap of the collaborator's failure, not with a distinct
private-key-missing precondition error: no such check exists in `Decrypt`.
The full entity itself decrypts the same envelope, so the missing private key
is the only obstacle. -/
theorem claim_C5_counterexample :
    Decrypt sampleKeyedEntity sampleEncrypted = ([7, 8], none) ∧
    (Decrypt (Public sampleKeyedEntity) sampleEncrypted).2
      = some (Err.decryptionError Err.badKey) ∧
    (Decrypt (Public sampleKeyedEntity) sampleEncrypted).2
      ≠ some Err.privateKeyMissing := by
  refine ⟨by decide, by decide, by decide⟩

/-- C5, amended: `Decrypt` fails with the not-encrypted error when the
envelope carries no encryption metadata; when the entity is a public view
(its private encryption key is absent) it returns the empty plaintext and a
decryption error wrapping the collaborator's failure — not a distinct
private-key-missing precondition error. -/
theorem claim_C5_amended (e : EntityData) (c : Container) :
    (c.enc = none → Decrypt e c = ([], some Err.notEncrypted)) ∧
    (∀ ed, c.enc = some ed →
      (Decrypt (Public e) c).1 = [] ∧
      ∃ inner, (Decrypt (Public e) c).2 = some (Err.decryptionError inner)) := by
  constructor
  · intro h
    unfold Decrypt
    rw [h]
  · intro ed h
    have hcd : ∃ inner, containerDecrypt ed (Public e).id (Public e).privateEncryptionKey
        = Except.error inner := by
      unfold containerDecrypt
      rcases hl : alookup ed.keys (Public e).id with _ | pub
      · exact ⟨Err.recipientNotFound, rfl⟩
      · refine ⟨Err.badKey, ?_⟩
        have hpub : pubOfPriv (Public e).privateEncryptionKey = none := rfl
        simp [hpub]
    obtain ⟨inner, hcd⟩ := hcd
    refine ⟨?_, ⟨inner, ?_⟩⟩
    · simp [Decrypt, h, hcd]
    · simp [Decrypt, h, hcd]

theorem claim_C5_amended_witness :
    newContainer.enc = none ∧
    sampleEncrypted.enc = some ⟨[([9], [1, 2])], [7, 8]⟩ ∧
    Decrypt sampleKeyedEntity newContainer = ([], some Err.notEncrypted) ∧
    (Decrypt (Public sampleKeyedEntity) sampleEncrypted).1 = [] ∧
    ∃ inner, (Decrypt (Public sampleKeyedEntity) sampleEncrypted).2
      = some (Err.decryptionError inner) :=
  ⟨by decide, by decide,
    (claim_C5_amended sampleKeyedEntity newContainer).1 (by decide),
    ((claim_C5_amended sampleKeyedEntity sampleEncrypted).2 ⟨[([9], [1, 2])], [7, 8]⟩
      (by decide)).1,
    ((claim_C5_amended sampleKeyedEntity sampleEncrypted).2 ⟨[([9], [1, 2])], [7, 8]⟩
      (by decide)).2⟩

/-- C6, counterexample: `Encrypt` called with an *empty* slice of recipients —
neither absent nor a non-empty set — does not fail with the invalid-recipients
error: the slice branch accepts it and proceeds with an empty recipient map. -/
theorem claim_C6_counterexample :
    (Encrypt sampleKeyedEntity [7] (Recipients.list [])).2 = none ∧
    (Encrypt sampleKeyedEntity [7] (Recipients.list [])).2
      ≠ some Err.invalidRecipients := by
  refine ⟨by decide, by decide⟩

/-- C6, amended: when the recipients argument is absent the recipient-key map
passed to the envelope collaborator is exactly the calling entity's own id and
public encryption key; when it is a slice of entities with distinct ids the
map contains each recipient's id and public encryption key (the empty slice is
accepted and yields an empty map); the invalid-recipients failure occurs
exactly when the argument has any other dynamic type; and the envelope's
source id is the calling entity's id. -/
theorem claim_C6_amended (e : EntityData) (content : Str) (es : List EntityData) :
    (∃ c, Encrypt e content Recipients.absent = (some c, none) ∧
      c.source = e.id ∧ c.enc = some ⟨[(e.id, e.publicEncryptionKey)], content⟩) ∧
    ((es.map EntityData.id).Nodup →
      ∃ c, Encrypt e content (Recipients.list es) = (some c, none) ∧
        c.source = e.id ∧
        ∃ ks, c.enc = some ⟨ks, content⟩ ∧
          ∀ r ∈ es, alookup ks r.id = some r.publicEncryptionKey) ∧
    Encrypt e content Recipients.other = (none, some Err.invalidRecipients) := by
  refine ⟨⟨_, rfl, rfl, rfl⟩, ?_, rfl⟩
  intro hnd
  refine ⟨_, rfl, rfl, ⟨buildKeys es, rfl, ?_⟩⟩
  intro r hr
  exact alookup_buildKeys hnd hr

theorem claim_C6_amended_witness :
    (([sampleKeyedEntity, sampleEntityB].map EntityData.id)).Nodup ∧
    (∃ c, Encrypt sampleEntity [7] Recipients.absent = (some c, none) ∧
      c.source = sampleEntity.id ∧
      c.enc = some ⟨[(sampleEntity.id, sampleEntity.publicEncryptionKey)], [7]⟩) ∧
    (∃ c, Encrypt sampleEntity [7] (Recipients.list [sampleKeyedEntity, sampleEntityB])
        = (some c, none) ∧
      c.source = sampleEntity.id ∧
      ∃ ks, c.enc = some ⟨ks, [7]⟩ ∧
        ∀ r ∈ [sampleKeyedEntity, sampleEntityB],
          alookup ks r.id = some r.publicEncryptionKey) ∧
    Encrypt sampleEntity [7] Recipients.other = (none, some Err.invalidRecipients) :=
  ⟨by decide,
    (claim_C6_amended sampleEntity [7] [sampleKeyedEntity, sampleEntityB]).1,
    (claim_C6_amended sampleEntity [7] [sampleKeyedEntity, sampleEntityB]).2.1 (by decide),
    (claim_C6_amended sampleEntity [7] [sampleKeyedEntity, sampleEntityB]).2.2⟩

/-- C8, the bug at the failing input: the recorded salt of `forgedContainer`
is not decodable, yet `VerifyAuthentication` does not return an error at the
decode step — the source computes the decode error but discards it and keeps
going with an empty salt, so the verification proceeds to the HMAC comparison
and here even succeeds. -/
theorem claim_C8_bug :
    base64Decode (alookupD forgedContainer.signatureInputs saltField) = none ∧
    hexDecode [97, 97] = some [170] ∧
    (VerifyAuthentication sampleEntity forgedContainer [97, 97]).1 = none := by
  refine ⟨by decide, by decide, by decide⟩

theorem Verify_ok_of_sig (e2 : EntityData) (c : Container) (s1 : Nat)
    (hpub : e2.publicSigningKey = pubKey s1)
    (hsig : c.signature ≠ [])
    (heq : c.signature = asymSig (Dump { c with signature := [] }) (privKey s1)) :
    (Verify e2 c).1 = none := by
  have hv : cryptoVerifyOk (Dump { c with signature := [] }) c.signature
      e2.publicSigningKey = true := by
    rw [hpub]
    exact decide_eq_true heq
  rw [Verify_shape_ok hsig hv]

theorem Verify_fail_of_sig_mismatch (e2 : EntityData) (c : Container) (s1 : Nat)
    (hpub : e2.publicSigningKey = pubKey s1)
    (hsig : c.signature ≠ [])
    (hne : c.signature ≠ asymSig (Dump { c with signature := [] }) (privKey s1)) :
    (Verify e2 c).1 = some Err.verificationError := by
  have hv : cryptoVerifyOk (Dump { c with signature := [] }) c.signature
      e2.publicSigningKey = false := by
    rw [hpub]
    exact decide_eq_false hne
  rw [Verify_shape_fail hsig hv]

/-- C1: for both supported key types, an entity that has generated keys and
signs a content string produces an envelope on which verification succeeds,
and flipping any single bit of the envelope body makes verification fail with
the verification error. -/
theorem claim_C1 (e : EntityData) (s1 s2 : Nat) (content : Str)
    (hkt : e.keyType = ktRsa ∨ e.keyType = ktEc) : C1Statement e s1 s2 content := by
  unfold C1Statement
  rw [GenerateKeys_shape hkt]
  obtain ⟨mode, hm⟩ : ∃ mode, modeOfKeyType (setKeys e s1 s2).keyType = some mode := by
    rcases hkt with h | h
    · exact ⟨modeRsa, by simp [modeOfKeyType, setKeys, h]⟩
    · exact ⟨modeEcdsa, by simp [modeOfKeyType, setKeys, h, ktRsa, ktEc]⟩
  have hp : isPrivKey (setKeys e s1 s2).privateSigningKey = true := rfl
  have hSign := Sign_shape_ok
    (c := { newContainer with source := (setKeys e s1 s2).id, body := content }) hm hp
  have hSS : SignString (setKeys e s1 s2) content
      = (some (signedContainer
          { newContainer with source := (setKeys e s1 s2).id, body := content }
          mode (setKeys e s1 s2).privateSigningKey), none) := by
    simp only [SignString]
    rw [hSign]
  refine ⟨rfl, _, hSS, rfl, ?_, ?_⟩
  · exact Verify_ok_of_sig _ _ s1 rfl asymSig_ne_nil rfl
  · intro i k hi
    refine Verify_fail_of_sig_mismatch _ _ s1 rfl asymSig_ne_nil ?_
    intro hEq
    obtain ⟨hD, -⟩ := asymSig_inj hEq
    have hcc := dump_inj hD
    have hbody := congrArg Container.body hcc
    exact flipBit_ne hi hbody.symm

theorem claim_C1_witness :
    (sampleEntity.keyType = ktRsa ∨ sampleEntity.keyType = ktEc) ∧
    C1Statement sampleEntity 0 1 [104, 105] :=
  ⟨Or.inr rfl, claim_C1 sampleEntity 0 1 [104, 105] (Or.inr rfl)⟩

/-- C2, counterexample: the hex secrets "aa" and "aA" differ in one byte, yet
verification of an envelope authenticated under "aa" succeeds with "aA",
because Go's hex decoding is case-insensitive and both decode to the same raw
key — refuting the claim that any secret differing in at least one byte fails
with the authentication-verification error. -/
theorem claim_C2_counterexample :
    ([97, 97] : Str) ≠ [97, 65] ∧
    hexDecode [97, 97] = hexDecode [97, 65] ∧
    (Authenticate sampleEntity newContainer [3] [97, 97] [5]).1 = none ∧
    (VerifyAuthentication sampleEntity
        (Authenticate sampleEntity newContainer [3] [97, 97] [5]).2 [97, 65]).1
      = none := by
  refine ⟨by decide, by decide, by decide, by decide⟩

/-- C2, amended: after `Authenticate` with a hex-decodable secret,
`VerifyAuthentication` with the same secret succeeds; with any secret whose
hex-decoded bytes differ from the original's it fails with the
authentication-verification error; and with the recorded salt replaced by the
(distinct) salt of a different authentication call it fails likewise. -/
theorem lookupSalt_authed (c : Container) (id salt raw : Str) :
    ((base64Decode (alookupD (authedContainer c id salt raw).signatureInputs
        saltField)).getD []) = salt := by
  show ((base64Decode (alookupD (authInputs id salt) saltField)).getD []) = salt
  rw [show alookupD (authInputs id salt) saltField = base64Encode salt from rfl,
    base64_roundtrip]
  rfl

theorem claim_C2_amended (e e2 : EntityData) (c : Container) (id key salt raw : Str)
    (hk : hexDecode key = some raw) : C2Statement e e2 c id key salt raw := by
  unfold C2Statement
  refine ⟨by rw [Authenticate_shape_ok hk], ?_⟩
  intro cA h
  rw [Authenticate_shape_ok hk] at h
  injection h with h1 h2
  subst h2
  refine ⟨?_, ?_, ?_⟩
  · have hok := VerifyAuthentication_ok (e := e2)
      (c := authedContainer c id salt raw) hk
      (by rw [lookupSalt_authed]; rfl)
    rw [hok]
  · intro key2 raw2 hk2 hraw
    have hfail := VerifyAuthentication_fail (e := e2)
      (c := authedContainer c id salt raw) hk2 ?_
    · rw [hfail]
    · rw [lookupSalt_authed]
      intro hEq
      have hEq2 : hmacTag (Dump (authedCleared c id salt)) (expandKey raw salt)
          = hmacTag (Dump (authedCleared c id salt)) (expandKey raw2 salt) := hEq
      obtain ⟨-, hKey⟩ := hmacTag_inj hEq2
      obtain ⟨hr, -⟩ := expandKey_inj hKey
      exact hraw hr.symm
  · intro id2 salt2 hs2
    have hfail := VerifyAuthentication_fail (e := e2)
      (c := { authedContainer c id salt raw with signatureInputs := authInputs id2 salt2 })
      hk ?_
    · exact congrArg Prod.fst hfail
    · have hlk2 : ((base64Decode (alookupD
          ({ authedContainer c id salt raw with
              signatureInputs := authInputs id2 salt2 } : Container).signatureInputs
          saltField)).getD []) = salt2 := by
        show ((base64Decode (alookupD (authInputs id2 salt2) saltField)).getD []) = salt2
        rw [show alookupD (authInputs id2 salt2) saltField = base64Encode salt2 from rfl,
          base64_roundtrip]
        rfl
      rw [hlk2]
      intro hEq
      have hEq2 : hmacTag (Dump (authedCleared c id salt)) (expandKey raw salt)
          = hmacTag (Dump (authedCleared c id2 salt2)) (expandKey raw salt2) := hEq
      obtain ⟨-, hKey⟩ := hmacTag_inj hEq2
      obtain ⟨-, hs⟩ := expandKey_inj hKey
      exact hs2 hs.symm

theorem claim_C2_amended_witness :
    hexDecode [97, 97] = some [170] ∧
    C2Statement sampleEntity sampleKeyedEntity newContainer [3] [97, 97] [5] [170] :=
  ⟨by decide,
    claim_C2_amended sampleEntity sampleKeyedEntity newContainer [3] [97, 97] [5] [170]
      (by decide)⟩

theorem claim_C10_witness :
    hexDecode [97, 97] ≠ none ∧
    (((Verify sampleEntity newContainer).2.signature = [] ∧
        (Verify sampleEntity (Verify sampleEntity newContainer).2).1
          = some Err.notSigned) ∧
      ((VerifyAuthentication sampleEntity newContainer [97, 97]).2.signature = [] ∧
        (Verify sampleEntity
            (VerifyAuthentication sampleEntity newContainer [97, 97]).2).1
          = some Err.notSigned)) :=
  ⟨by decide, claim_C10 sampleEntity sampleEntity newContainer [97, 97] (by decide)⟩

end Pki
